import Mathlib

set_option maxHeartbeats 1000000

/-!
Shallow embedding of the Emperor backend core (permission subsystem and
process-manager event machinery), translated from the Python sources under
`backend/`.  Machine-level side effects that cannot influence the values the
claims talk about (logger calls, audit side effects that do not feed back into
returned results) are omitted; everything that determines a returned value is
modelled faithfully.
-/

/-! ## Generic association-list dictionary (models Python `dict` usage)

Python dicts preserve insertion order; assignment to an existing key replaces
the value in place, assignment to a fresh key appends, `pop` removes the key,
`get`/`in` look the key up. -/

def dictGet {α : Type} (d : List (String × α)) (k : String) : Option α :=
  (d.find? (fun p => p.1 == k)).map (fun p => p.2)

def dictHas {α : Type} (d : List (String × α)) (k : String) : Bool :=
  d.any (fun p => p.1 == k)

def dictInsert {α : Type} (k : String) (v : α) (d : List (String × α)) :
    List (String × α) :=
  if dictHas d k then d.map (fun p => if p.1 == k then (k, v) else p)
  else d ++ [(k, v)]

def dictRemove {α : Type} (k : String) (d : List (String × α)) :
    List (String × α) :=
  d.filter (fun p => p.1 ≠ k)

/-! ## Risk levels — `backend/permissions/risk_levels.py` -/

inductive RiskLevel where
  | low
  | medium
  | high
  | critical
deriving DecidableEq

def RiskLevel.value : RiskLevel → String
  | .low => "low"
  | .medium => "medium"
  | .high => "high"
  | .critical => "critical"

/-- Position of a level in the order list `[LOW, MEDIUM, HIGH, CRITICAL]`
used by `ToolRiskClassifier._compare_levels`. -/
def riskIdx : RiskLevel → Nat
  | .low => 0
  | .medium => 1
  | .high => 2
  | .critical => 3

/-- `_compare_levels(a, b)`: `order.index(a) - order.index(b)`. -/
def compareLevels (a b : RiskLevel) : Int :=
  (riskIdx a : Int) - (riskIdx b : Int)

/-- The intended ordering LOW < MEDIUM < HIGH < CRITICAL. -/
def riskLE (a b : RiskLevel) : Prop := riskIdx a ≤ riskIdx b

instance (a b : RiskLevel) : Decidable (riskLE a b) := by
  unfold riskLE; infer_instance

/-! ### Regex matchers for the escalation patterns

All patterns in `RISK_ESCALATION_PATTERNS` are compiled with `re.IGNORECASE`,
so matching happens on the lower-cased input.  Each concrete regex shape used
by the table is translated into an executable matcher:
`^lit` (anchored literal), `\.(e1|…|ek)$` (extension alternation),
`\bword\b` (word with boundaries), `\brm\s+-[rfR]`, `\bw1\s+w2\b`. -/

def lcChars (s : String) : List Char := s.data.map Char.toLower

/-- Python `\w`: alphanumeric or underscore (ASCII inputs in this system). -/
def isWordChar (c : Char) : Bool := c.isAlphanum || c == '_'

/-- A `\b` boundary holds before a word at this position iff the preceding
character (if any) is not a word character. -/
def okBefore : Option Char → Bool
  | none => true
  | some c => !isWordChar c

/-- A `\b` boundary holds after a word iff the following character (if any)
is not a word character. -/
def okAfterChars : List Char → Bool
  | [] => true
  | c :: _ => !isWordChar c

/-- `re.search` of `^lit` (e.g. `^/etc/`): the value starts with the literal. -/
def searchCaret (pat : String) (v : String) : Bool :=
  List.isPrefixOf pat.data (lcChars v)

/-- `re.search` of `\.(e1|…|ek)$`: the value ends with `.`+one extension. -/
def searchExt (exts : List String) (v : String) : Bool :=
  exts.any (fun e => List.isSuffixOf ("." ++ e).data (lcChars v))

def wordAt (w : List Char) (prev : Option Char) (s : List Char) : Bool :=
  List.isPrefixOf w s && okBefore prev && okAfterChars (s.drop w.length)

def searchWordAux (w : List Char) : Option Char → List Char → Bool
  | _, [] => false
  | prev, c :: rest => wordAt w prev (c :: rest) || searchWordAux w (some c) rest

/-- `re.search` of `\bword\b`. -/
def searchWord (w : String) (v : String) : Bool :=
  searchWordAux w.data none (lcChars v)

def rmAt (prev : Option Char) (s : List Char) : Bool :=
  match s with
  | 'r' :: 'm' :: rest =>
    okBefore prev &&
    (let rest2 := rest.dropWhile Char.isWhitespace
     decide (rest2.length < rest.length) &&
     (match rest2 with
      | '-' :: c :: _ => c == 'r' || c == 'f'
      | _ => false))
  | _ => false

def searchRmAux : Option Char → List Char → Bool
  | _, [] => false
  | prev, c :: rest => rmAt prev (c :: rest) || searchRmAux (some c) rest

/-- `re.search` of `\brm\s+-[rfR]` (lower-cased, so `[rfR]` is `r` or `f`). -/
def searchRm (v : String) : Bool := searchRmAux none (lcChars v)

def twoWordAt (w1 w2 : List Char) (prev : Option Char) (s : List Char) : Bool :=
  List.isPrefixOf w1 s && okBefore prev &&
  (let rest := s.drop w1.length
   let rest2 := rest.dropWhile Char.isWhitespace
   decide (rest2.length < rest.length) && List.isPrefixOf w2 rest2 &&
     okAfterChars (rest2.drop w2.length))

def searchTwoWordAux (w1 w2 : List Char) : Option Char → List Char → Bool
  | _, [] => false
  | prev, c :: rest =>
    twoWordAt w1 w2 prev (c :: rest) || searchTwoWordAux w1 w2 (some c) rest

/-- `re.search` of `\bw1\s+w2\b` (e.g. `\bpip\s+install\b`). -/
def searchTwoWord (w1 w2 : String) (v : String) : Bool :=
  searchTwoWordAux w1.data w2.data none (lcChars v)

/-! ### The static risk tables -/

/-- `TOOL_RISK_LEVELS`. -/
def TOOL_RISK_LEVELS : List (String × RiskLevel) := [
  ("read_file", .low),
  ("list_directory", .low),
  ("write_file", .medium),
  ("grep", .low),
  ("glob", .low),
  ("remember", .low),
  ("recall", .low),
  ("forget", .medium),
  ("list_memories", .low),
  ("execute_command", .high),
  ("background_command", .high),
  ("web_search", .low)]

/-- One compiled escalation pattern: the regex source text, its executable
`search` function, and the level it escalates to. -/
structure EscalationRule where
  src : String
  search : String → Bool
  level : RiskLevel

def writeFilePatterns : List EscalationRule := [
  ⟨"^/etc/", searchCaret "/etc/", .critical⟩,
  ⟨"^/usr/", searchCaret "/usr/", .critical⟩,
  ⟨"^/bin/", searchCaret "/bin/", .critical⟩,
  ⟨"^/sbin/", searchCaret "/sbin/", .critical⟩,
  ⟨"^/var/", searchCaret "/var/", .high⟩,
  ⟨"\\.(sh|bash|zsh|py|rb|pl)$", searchExt ["sh", "bash", "zsh", "py", "rb", "pl"], .high⟩,
  ⟨"\\.(env|config|conf|ini)$", searchExt ["env", "config", "conf", "ini"], .high⟩]

def executeCommandPatterns : List EscalationRule := [
  ⟨"\\bsudo\\b", searchWord "sudo", .critical⟩,
  ⟨"\\bsu\\b", searchWord "su", .critical⟩,
  ⟨"\\brm\\s+-[rfR]", searchRm, .critical⟩,
  ⟨"\\brmdir\\b", searchWord "rmdir", .high⟩,
  ⟨"\\bmkfs\\b", searchWord "mkfs", .critical⟩,
  ⟨"\\bsystemctl\\b", searchWord "systemctl", .critical⟩,
  ⟨"\\bservice\\b", searchWord "service", .critical⟩,
  ⟨"\\bapt\\b", searchWord "apt", .high⟩,
  ⟨"\\byum\\b", searchWord "yum", .high⟩,
  ⟨"\\bbrew\\b", searchWord "brew", .medium⟩,
  ⟨"\\bpip\\s+install\\b", searchTwoWord "pip" "install", .medium⟩,
  ⟨"\\bnpm\\s+install\\b", searchTwoWord "npm" "install", .medium⟩]

/-- `RISK_ESCALATION_PATTERNS` (as compiled into `ToolRiskClassifier._patterns`). -/
def RISK_ESCALATION_PATTERNS : List (String × List EscalationRule) := [
  ("write_file", writeFilePatterns),
  ("execute_command", executeCommandPatterns)]

/-! ### `ToolRiskClassifier.classify` -/

/-- Tool input: the relevant projection of the `input_data` dict (string
values, as the code applies `str(...)` before matching). -/
abbrev ToolInput := List (String × String)

/-- The values `_check_escalation` collects from the input for a tool. -/
def valuesToCheck (tool : String) (input : ToolInput) : List String :=
  if tool == "write_file" then
    match dictGet input "path" with
    | some p => [p]
    | none => []
  else if tool == "execute_command" then
    match dictGet input "command" with
    | some c => [c]
    | none => []
  else []

/-- Body of the `for pattern, level in patterns` loop in `_check_escalation`:
`if pattern.search(value) and compare(level, highest) > 0: highest = level`. -/
def escStep (h : RiskLevel) (v : String) (r : EscalationRule) : RiskLevel :=
  if r.search v then
    (if compareLevels r.level h > 0 then r.level else h)
  else h

/-- `ToolRiskClassifier._check_escalation`. -/
def checkEscalation (tool : String) (input : ToolInput) (base : RiskLevel) :
    Option RiskLevel :=
  let patterns := (dictGet RISK_ESCALATION_PATTERNS tool).getD []
  let values := valuesToCheck tool input
  let highest := values.foldl (fun h v => patterns.foldl (fun h2 r => escStep h2 v r) h) base
  if highest ≠ base then some highest else none

/-- `ToolRiskClassifier.classify`: base level from the static table (default
HIGH), escalated when the input dict is truthy and the tool has patterns
(`escalated_level or base_level`, written with `getD`). -/
def classify (tool : String) (input : ToolInput) : RiskLevel :=
  let base := (dictGet TOOL_RISK_LEVELS tool).getD .high
  if !input.isEmpty && (dictGet RISK_ESCALATION_PATTERNS tool).isSome then
    (checkEscalation tool input base).getD base
  else base

/-! ### Spec-side view of escalation used to state C2 -/

/-- Maximum of two risk levels in the LOW < MEDIUM < HIGH < CRITICAL order. -/
def maxRisk (h l : RiskLevel) : RiskLevel :=
  if riskIdx h < riskIdx l then l else h

/-- The levels of all escalation rules whose pattern matches the relevant
input value(s) for this tool, in source order. -/
def matchedLevels (tool : String) (input : ToolInput) : List RiskLevel :=
  (valuesToCheck tool input).flatMap (fun v =>
    ((dictGet RISK_ESCALATION_PATTERNS tool).getD []).filterMap (fun r =>
      if r.search v then some r.level else none))

theorem escStep_eq_maxRisk (h : RiskLevel) (v : String) (r : EscalationRule) :
    escStep h v r = if r.search v then maxRisk h r.level else h := by
  rcases hs : r.search v
  · simp [escStep, hs]
  · simp only [escStep, maxRisk, compareLevels, hs, if_true]
    split <;> split <;> first | rfl | omega

theorem foldl_escStep_eq (v : String) (rs : List EscalationRule) (h : RiskLevel) :
    rs.foldl (fun h2 r => escStep h2 v r) h
      = (rs.filterMap (fun r => if r.search v then some r.level else none)).foldl maxRisk h := by
  induction rs generalizing h with
  | nil => rfl
  | cons r rs ih =>
    simp only [List.foldl_cons, List.filterMap_cons]
    rcases hs : r.search v
    · have hstep : escStep h v r = h := by simp [escStep, hs]
      rw [hstep]
      simp only [hs, Bool.false_eq_true, if_false]
      exact ih h
    · have hstep : escStep h v r = maxRisk h r.level := by
        rw [escStep_eq_maxRisk, if_pos hs]
      rw [hstep]
      simp only [hs, if_true, List.foldl_cons]
      exact ih (maxRisk h r.level)

theorem foldl_values_eq (rs : List EscalationRule) (vs : List String) (h : RiskLevel) :
    vs.foldl (fun h1 v => rs.foldl (fun h2 r => escStep h2 v r) h1) h
      = (vs.flatMap (fun v =>
          rs.filterMap (fun r => if r.search v then some r.level else none))).foldl maxRisk h := by
  induction vs generalizing h with
  | nil => rfl
  | cons v vs ih =>
    simp only [List.foldl_cons, List.flatMap_cons, List.foldl_append]
    rw [foldl_escStep_eq]
    exact ih _

theorem riskIdx_le_foldl_maxRisk (ls : List RiskLevel) (h : RiskLevel) :
    riskIdx h ≤ riskIdx (ls.foldl maxRisk h) := by
  induction ls generalizing h with
  | nil => simp
  | cons l ls ih =>
    refine le_trans ?_ (ih (maxRisk h l))
    unfold maxRisk
    split <;> omega

theorem flatMap_fun_nil {α β : Type} (vs : List α) :
    vs.flatMap (fun _ => ([] : List β)) = [] := by
  induction vs <;> simp_all

theorem valuesToCheck_nil (tool : String) : valuesToCheck tool [] = [] := by
  unfold valuesToCheck dictGet
  simp

theorem getD_if_ne (b x : RiskLevel) :
    (if x ≠ b then some x else none).getD b = x := by
  by_cases h : x = b <;> simp [h]

theorem classify_eq_foldl (tool : String) (input : ToolInput) :
    classify tool input
      = (matchedLevels tool input).foldl maxRisk ((dictGet TOOL_RISK_LEVELS tool).getD .high) := by
  rcases hA : dictGet RISK_ESCALATION_PATTERNS tool with _ | rs
  · have hm : matchedLevels tool input = [] := by
      unfold matchedLevels
      rw [hA]
      simp [flatMap_fun_nil]
    rw [hm, List.foldl_nil]
    simp [classify, hA]
  · by_cases hi : input.isEmpty
    · have h0 : input = [] := by
        cases input with
        | nil => rfl
        | cons p l => simp [List.isEmpty] at hi
      subst h0
      have hm : matchedLevels tool [] = [] := by
        unfold matchedLevels
        rw [valuesToCheck_nil]
        rfl
      rw [hm, List.foldl_nil]
      simp [classify]
    · have hcond : (!input.isEmpty && (dictGet RISK_ESCALATION_PATTERNS tool).isSome) = true := by
        simp [hA, hi]
      simp only [classify, hcond, if_true]
      unfold checkEscalation
      rw [hA]
      simp only [Option.getD_some]
      rw [getD_if_ne]
      unfold matchedLevels
      rw [hA]
      simp only [Option.getD_some]
      exact foldl_values_eq rs _ _

/-- **C2.** For every tool name and input: `classify` returns HIGH when the
tool name is not in the base risk table, and otherwise returns the maximum of
the tool's base risk level and the levels of all escalation patterns that
match the relevant input field; the result is never strictly below the base. -/
theorem claim_C2 (tool : String) (input : ToolInput) :
    (dictGet TOOL_RISK_LEVELS tool = none →
        classify tool input
          = (matchedLevels tool input).foldl maxRisk .high) ∧
    (∀ b, dictGet TOOL_RISK_LEVELS tool = some b →
        classify tool input = (matchedLevels tool input).foldl maxRisk b ∧
        riskLE b (classify tool input)) := by
  constructor
  · intro hnone
    rw [classify_eq_foldl, hnone, Option.getD_none]
  · intro b hb
    constructor
    · rw [classify_eq_foldl, hb, Option.getD_some]
    · rw [classify_eq_foldl, hb, Option.getD_some]
      exact riskIdx_le_foldl_maxRisk _ _

/-- Witness for C2 at concrete inputs: `write_file` to `/etc/passwd` (base
MEDIUM, escalated to CRITICAL) and an unknown tool (HIGH). -/
theorem claim_C2_witness :
    classify "write_file" [("path", "/etc/passwd")] = .critical ∧
    riskLE .medium (classify "write_file" [("path", "/etc/passwd")]) ∧
    classify "launch_missiles" [] = .high := by
  refine ⟨by decide, ?_, ?_⟩
  · exact ((claim_C2 "write_file" [("path", "/etc/passwd")]).2 .medium (by decide)).2
  · have h := (claim_C2 "launch_missiles" []).1 (by decide)
    simpa [matchedLevels, valuesToCheck] using h

/-! ## Permission presets — `backend/permissions/presets.py` -/

inductive PermissionPreset where
  | strict
  | moderate
  | relaxed
  | custom
deriving DecidableEq

/-- `PresetConfig` dataclass.  Risk-level sets become lists (membership is
all the code uses); `tool_overrides` keeps its dict shape. -/
structure PresetConfig where
  name : PermissionPreset
  description : String
  require_approval : List RiskLevel := []
  auto_deny : List RiskLevel := []
  auto_allow : List RiskLevel := []
  tool_overrides : List (String × String) := []
  debug_mode_bypass : Bool := false
  approval_timeout : Nat := 300
  log_all_operations : Bool := true
deriving DecidableEq

/-- `PRESET_CONFIGS[PermissionPreset.STRICT]`. -/
def STRICT_CONFIG : PresetConfig :=
  { name := .strict,
    description := "Maximum security - requires approval for most operations",
    require_approval := [.medium, .high, .critical],
    auto_deny := [],
    auto_allow := [.low],
    tool_overrides := [("write_file", "approve"), ("execute_command", "approve"),
      ("background_command", "approve")],
    debug_mode_bypass := false,
    approval_timeout := 300,
    log_all_operations := true }

/-- `PRESET_CONFIGS[PermissionPreset.MODERATE]`. -/
def MODERATE_CONFIG : PresetConfig :=
  { name := .moderate,
    description := "Balanced security - requires approval for sensitive operations",
    require_approval := [.high, .critical],
    auto_deny := [],
    auto_allow := [.low, .medium],
    tool_overrides := [("execute_command", "approve"), ("background_command", "approve")],
    debug_mode_bypass := false,
    approval_timeout := 180,
    log_all_operations := true }

/-- `PRESET_CONFIGS[PermissionPreset.RELAXED]`. -/
def RELAXED_CONFIG : PresetConfig :=
  { name := .relaxed,
    description := "Minimal friction - only blocks critical operations",
    require_approval := [.critical],
    auto_deny := [],
    auto_allow := [.low, .medium, .high],
    tool_overrides := [],
    debug_mode_bypass := true,
    approval_timeout := 120,
    log_all_operations := false }

/-! ## Permission manager — `backend/permissions/manager.py` -/

/-- `PermissionResult` dataclass. -/
structure PermissionResult where
  allowed : Bool
  risk_level : RiskLevel
  reason : String
  requires_approval : Bool := false
  approval_granted : Option Bool := none
deriving DecidableEq

/-- The risk-level bucket logic of `check_permission` (the part after the
tool-override block): auto-deny, then auto-allow, then require-approval with
the debug-mode bypass, then default allow.  `debug` models `settings.debug`. -/
def checkBuckets (cfg : PresetConfig) (debug : Bool) (risk : RiskLevel) :
    PermissionResult :=
  if risk ∈ cfg.auto_deny then
    { allowed := false, risk_level := risk,
      reason := "Operations with " ++ risk.value ++ " risk are automatically denied" }
  else if risk ∈ cfg.auto_allow then
    { allowed := true, risk_level := risk,
      reason := "Operations with " ++ risk.value ++ " risk are automatically allowed" }
  else if risk ∈ cfg.require_approval then
    if cfg.debug_mode_bypass && debug then
      { allowed := true, risk_level := risk,
        reason := "Approval bypassed in debug mode" }
    else
      { allowed := false, risk_level := risk,
        reason := "Operations with " ++ risk.value ++ " risk require approval",
        requires_approval := true }
  else
    { allowed := true, risk_level := risk,
      reason := "Operation permitted by preset configuration" }

/-- `PermissionManager.check_permission`.  Audit logging (`log_all_operations`,
`log_tool_denied`) is a side effect that never feeds back into the returned
`PermissionResult` and is omitted.  An `"approve"` override — like any
override value other than `"deny"`/`"allow"` — falls through (`pass`) into
the bucket logic. -/
def checkPermission (cfg : PresetConfig) (debug : Bool)
    (agentName toolName : String) (input : ToolInput) : PermissionResult :=
  let risk := classify toolName input
  match dictGet cfg.tool_overrides toolName with
  | some ov =>
    if ov == "deny" then
      { allowed := false, risk_level := risk,
        reason := "Tool \x27" ++ toolName ++ "\x27 is blocked by preset configuration" }
    else if ov == "allow" then
      { allowed := true, risk_level := risk,
        reason := "Tool allowed by preset override" }
    else
      checkBuckets cfg debug risk
  | none => checkBuckets cfg debug risk

/-- **C1 counterexample.**  A legitimately constructible custom preset
(`create_custom_preset` defaults plus an `"approve"` override for
`read_file`) classifies `read_file` as LOW, LOW lies in `auto_allow`, and
`check_permission` returns `requires_approval = false` — the `"approve"`
override does *not* take precedence over the auto-allow bucket. -/
def approveOverrideConfig : PresetConfig :=
  { name := .custom,
    description := "Custom permission configuration",
    require_approval := [.high, .critical],
    auto_deny := [],
    auto_allow := [.low],
    tool_overrides := [("read_file", "approve")],
    debug_mode_bypass := false,
    approval_timeout := 180,
    log_all_operations := true }

theorem claim_C1_counterexample :
    dictGet approveOverrideConfig.tool_overrides "read_file" = some "approve" ∧
    classify "read_file" [] ∈ approveOverrideConfig.auto_allow ∧
    ¬((checkPermission approveOverrideConfig false "agent" "read_file" []).requires_approval = true) := by
  decide

/-- **C1 (amended).**  If the tool appears in the preset's tool_overrides:
override `"deny"` yields `allowed = false`, override `"allow"` yields
`allowed = true`; override `"approve"` does **not** short-circuit — the
result equals the plain risk-bucket evaluation, so `requires_approval = true`
holds exactly when the classified level escapes auto-deny and auto-allow,
lies in require_approval, and the debug-mode bypass is off. -/
theorem claim_C1 (cfg : PresetConfig) (debug : Bool) (agentName toolName : String)
    (input : ToolInput) (ov : String)
    (hov : dictGet cfg.tool_overrides toolName = some ov) :
    (ov = "deny" →
        (checkPermission cfg debug agentName toolName input).allowed = false ∧
        (checkPermission cfg debug agentName toolName input).requires_approval = false) ∧
    (ov = "allow" →
        (checkPermission cfg debug agentName toolName input).allowed = true ∧
        (checkPermission cfg debug agentName toolName input).requires_approval = false) ∧
    (ov = "approve" →
        checkPermission cfg debug agentName toolName input
          = checkBuckets cfg debug (classify toolName input) ∧
        (classify toolName input ∉ cfg.auto_deny →
         classify toolName input ∉ cfg.auto_allow →
         classify toolName input ∈ cfg.require_approval →
         ¬(cfg.debug_mode_bypass = true ∧ debug = true) →
         (checkPermission cfg debug agentName toolName input).requires_approval = true)) := by
  refine ⟨?_, ?_, ?_⟩
  · rintro rfl
    simp [checkPermission, hov]
  · rintro rfl
    simp [checkPermission, hov]
  · rintro rfl
    have heq : checkPermission cfg debug agentName toolName input
        = checkBuckets cfg debug (classify toolName input) := by
      simp [checkPermission, hov]
    refine ⟨heq, ?_⟩
    intro hnd hna hreq hnb
    rw [heq]
    unfold checkBuckets
    rw [if_neg hnd, if_neg hna, if_pos hreq]
    have hb : (cfg.debug_mode_bypass && debug) = false := by
      rcases h1 : cfg.debug_mode_bypass <;> rcases h2 : debug <;>
        simp_all
    rw [hb]
    simp

/-- Witness for C1: under the shipped STRICT preset, `execute_command` has an
`"approve"` override, classifies HIGH, and the check requires approval. -/
theorem claim_C1_witness :
    dictGet STRICT_CONFIG.tool_overrides "execute_command" = some "approve" ∧
    (checkPermission STRICT_CONFIG false "task_lead" "execute_command"
        [("command", "ls")]).requires_approval = true := by
  refine ⟨by decide, ?_⟩
  have h := ((claim_C1 STRICT_CONFIG false "task_lead" "execute_command"
      [("command", "ls")] "approve" (by decide)).2.2 rfl).2
  exact h (by decide) (by decide) (by decide) (by decide)

/-! ## Events — `backend/process_manager/events.py` -/

/-- The closed `EventType` enum. -/
inductive EventType where
  | orchestratorDelegate
  | orchestratorResponse
  | orchestratorError
  | leadReceived
  | leadPlanning
  | leadAssign
  | leadProgress
  | leadComplete
  | leadError
  | workerStart
  | workerProgress
  | workerComplete
  | workerError
  | toolExecute
  | toolProgress
  | toolResult
  | toolError
  | approvalRequest
  | approvalGranted
  | approvalDenied
  | approvalTimeout
  | agentStarted
  | agentIdle
  | agentBusy
  | agentStopped
  | memoryStore
  | memoryRecall
  | memoryForget
  | systemStartup
  | systemShutdown
  | systemError
deriving DecidableEq

/-- The dotted string value of each event type. -/
def EventType.value : EventType → String
  | .orchestratorDelegate => "orchestrator.delegate"
  | .orchestratorResponse => "orchestrator.response"
  | .orchestratorError => "orchestrator.error"
  | .leadReceived => "lead.received"
  | .leadPlanning => "lead.planning"
  | .leadAssign => "lead.assign"
  | .leadProgress => "lead.progress"
  | .leadComplete => "lead.complete"
  | .leadError => "lead.error"
  | .workerStart => "worker.start"
  | .workerProgress => "worker.progress"
  | .workerComplete => "worker.complete"
  | .workerError => "worker.error"
  | .toolExecute => "tool.execute"
  | .toolProgress => "tool.progress"
  | .toolResult => "tool.result"
  | .toolError => "tool.error"
  | .approvalRequest => "approval.request"
  | .approvalGranted => "approval.granted"
  | .approvalDenied => "approval.denied"
  | .approvalTimeout => "approval.timeout"
  | .agentStarted => "agent.started"
  | .agentIdle => "agent.idle"
  | .agentBusy => "agent.busy"
  | .agentStopped => "agent.stopped"
  | .memoryStore => "memory.store"
  | .memoryRecall => "memory.recall"
  | .memoryForget => "memory.forget"
  | .systemStartup => "system.startup"
  | .systemShutdown => "system.shutdown"
  | .systemError => "system.error"

inductive Priority where
  | low
  | normal
  | high
  | critical
deriving DecidableEq

def Priority.value : Priority → String
  | .low => "low"
  | .normal => "normal"
  | .high => "high"
  | .critical => "critical"

/-- Values stored in an event's `data: dict[str, Any]` payload, restricted to
the shapes the modelled code paths consume (floats are modelled as exact
rationals: the only arithmetic applied to them is `min`/`max`, which agree
with rational order on finite floats). -/
inductive PyValue where
  | str (s : String)
  | num (q : ℚ)
  | boolean (b : Bool)
  | strList (l : List String)
  | noneV
deriving DecidableEq

abbrev EventData := List (String × PyValue)

/-- `Event` dataclass.  `timestamp` is an abstract tick (only ever copied,
never computed with). -/
structure Event where
  type : EventType
  data : EventData
  source : String
  id : String := ""
  timestamp : Nat := 0
  correlationId : Option String := none
  priority : Priority := .normal
deriving DecidableEq

/-! ## Event bus request/response state — `backend/process_manager/event_bus.py`

The bus runs on a single asyncio loop: `_check_pending_responses` (called
synchronously from `_dispatch`) and the bookkeeping in `publish_and_wait`
are the only mutators of `_pending_responses`, so the shared state is
modelled as an explicit record threaded through those operations.  A future
is a slot that is `none` until resolved (`set_result`); the slot array only
grows, mirroring future objects staying alive after their table entry is
dropped. -/

/-- `PendingResponse` bookkeeping (minus `created_at`, which nothing reads). -/
structure PendingResponse where
  correlationId : String
  responseTypes : List EventType
  futureId : Nat
  timeout : ℚ
deriving DecidableEq

structure BusState where
  pending : List (String × PendingResponse)
  futures : List (Option Event)
deriving DecidableEq

/-- `EventBus._check_pending_responses`: on each dispatched event, look up the
pending entry for the event's correlation id; if the event's type is one of
the awaited response types and the future is not yet done, resolve it. -/
def checkPendingResponses (st : BusState) (e : Event) : BusState :=
  match e.correlationId with
  | none => st
  | some cid =>
    match dictGet st.pending cid with
    | none => st
    | some p =>
      if e.type ∈ p.responseTypes then
        if st.futures[p.futureId]? = some none then
          { st with futures := st.futures.set p.futureId (some e) }
        else st
      else st

/-- The correlation id `publish_and_wait` uses: the event's own, or a freshly
generated `cor_…` id when absent (`freshCid` stands for the uuid draw). -/
def pawCid (e : Event) (freshCid : String) : String :=
  match e.correlationId with
  | some c => c
  | none => freshCid

/-- Registration step of `publish_and_wait`: create a fresh unresolved
future and insert the `PendingResponse` keyed by the correlation id
(a plain dict assignment: replaces any previous entry for that key). -/
def pawRegister (st : BusState) (cid : String) (rts : List EventType)
    (timeout : ℚ) : Nat × BusState :=
  (st.futures.length,
   { pending := dictInsert cid ⟨cid, rts, st.futures.length, timeout⟩ st.pending,
     futures := st.futures ++ [none] })

/-- The `finally:` block of `publish_and_wait`:
`self._pending_responses.pop(event.correlation_id, None)`. -/
def pawCleanup (st : BusState) (cid : String) : BusState :=
  { st with pending := dictRemove cid st.pending }

/-- `EventBus.publish_and_wait`, as a function of the (finite) sequence of
events the processing loop dispatches while the call is waiting
(`arrivals`; this includes the published request itself).  The returned
`Option Event` is the call's result: the resolved future's event, or `none`
on timeout (`asyncio.TimeoutError` is caught, never re-raised).  The
cleanup runs unconditionally. -/
def publishAndWait (st : BusState) (e : Event) (freshCid : String)
    (rts : List EventType) (timeout : ℚ) (arrivals : List Event) :
    Option Event × BusState :=
  let cid := pawCid e freshCid
  let r := pawRegister st cid rts timeout
  let st2 := arrivals.foldl checkPendingResponses r.2
  let result := (st2.futures[r.1]?).getD none
  (result, pawCleanup st2 cid)

/-- An event matches an outstanding `publish_and_wait` call iff it carries the
call's correlation id and one of the awaited response types. -/
def matchResp (cid : String) (rts : List EventType) (e : Event) : Bool :=
  decide (e.correlationId = some cid) && decide (e.type ∈ rts)

/-- Well-formedness: every pending entry's future slot exists. -/
def BusWF (st : BusState) : Prop :=
  ∀ p ∈ st.pending, p.2.futureId < st.futures.length

/-! ### Dictionary lemmas -/

theorem dictGet_cons_hit {α : Type} (p : String × α) (d : List (String × α))
    (k : String) (h : (p.1 == k) = true) :
    dictGet (p :: d) k = some p.2 := by
  unfold dictGet
  rw [List.find?_cons_of_pos (p := fun q : String × α => q.1 == k) d h]
  rfl

theorem dictGet_cons_miss {α : Type} (p : String × α) (d : List (String × α))
    (k : String) (h : (p.1 == k) = false) :
    dictGet (p :: d) k = dictGet d k := by
  unfold dictGet
  rw [List.find?_cons_of_neg (p := fun q : String × α => q.1 == k) d (by simp [h])]

theorem dictGet_map_insert {α : Type} (k : String) (v : α) (d : List (String × α))
    (hd : dictHas d k = true) :
    dictGet (d.map (fun p => if p.1 == k then (k, v) else p)) k = some v := by
  induction d with
  | nil => simp [dictHas] at hd
  | cons p d ih =>
    rw [List.map_cons]
    by_cases hp : (p.1 == k) = true
    · rw [if_pos hp, dictGet_cons_hit _ _ _ (by simp)]
    · have hd2 : dictHas d k = true := by
        simp only [dictHas, List.any_cons, hp] at hd
        simpa [dictHas] using hd
      rw [if_neg hp, dictGet_cons_miss _ _ _ (by simpa using hp)]
      exact ih hd2

theorem dictGet_append_new {α : Type} (k : String) (v : α) (d : List (String × α))
    (hd : dictHas d k = false) :
    dictGet (d ++ [(k, v)]) k = some v := by
  induction d with
  | nil => exact dictGet_cons_hit _ _ _ (by simp)
  | cons p d ih =>
    simp only [dictHas, List.any_cons, Bool.or_eq_false_iff] at hd
    rw [List.cons_append, dictGet_cons_miss _ _ _ hd.1]
    exact ih (by simpa [dictHas] using hd.2)

theorem dictGet_insert_self {α : Type} (k : String) (v : α) (d : List (String × α)) :
    dictGet (dictInsert k v d) k = some v := by
  unfold dictInsert
  by_cases hd : dictHas d k
  · rw [if_pos hd]
    exact dictGet_map_insert k v d hd
  · rw [if_neg hd]
    exact dictGet_append_new k v d (by simpa using hd)

theorem mem_dictInsert {α : Type} {q : String × α} {k : String} {v : α}
    {d : List (String × α)} (hq : q ∈ dictInsert k v d) :
    q = (k, v) ∨ (q ∈ d ∧ ¬(q.1 = k)) := by
  unfold dictInsert at hq
  by_cases hd : dictHas d k
  · rw [if_pos hd] at hq
    rcases List.mem_map.mp hq with ⟨r, hr, hrq⟩
    by_cases hk : r.1 == k
    · left
      rw [← hrq, if_pos hk]
    · right
      rw [← hrq, if_neg hk]
      exact ⟨hr, by simpa using hk⟩
  · rw [if_neg hd] at hq
    rcases List.mem_append.mp hq with h | h
    · right
      refine ⟨h, ?_⟩
      intro hk
      have : dictHas d k = true := by
        unfold dictHas
        rw [List.any_eq_true]
        exact ⟨q, h, by simp [hk]⟩
      exact hd this
    · left
      simpa using h

theorem dictGet_mem {α : Type} {d : List (String × α)} {k : String} {v : α}
    (h : dictGet d k = some v) : (k, v) ∈ d := by
  unfold dictGet at h
  rcases hf : List.find? (fun p => p.1 == k) d with _ | pair
  · rw [hf] at h; simp at h
  · rw [hf] at h
    have h1 := List.find?_some hf
    have h2 : pair ∈ d := List.mem_of_find?_eq_some hf
    have h3 : pair.2 = v := by simpa using h
    have h4 : pair.1 = k := by simpa using h1
    have : pair = (k, v) := by
      cases pair
      simp_all
    rwa [this] at h2

theorem dictGet_remove_self {α : Type} (k : String) (d : List (String × α)) :
    dictGet (dictRemove k d) k = none := by
  unfold dictGet dictRemove
  rcases hf : List.find? (fun p => p.1 == k) (d.filter (fun p => p.1 ≠ k)) with _ | pair
  · simp
  · exfalso
    have h1 := List.find?_some hf
    have h2 := List.mem_of_find?_eq_some hf
    have h3 := (List.mem_filter.mp h2).2
    simp_all

/-! ### Pending-response lemmas -/

theorem checkPending_pending (st : BusState) (e : Event) :
    (checkPendingResponses st e).pending = st.pending := by
  unfold checkPendingResponses
  rcases hc : e.correlationId with _ | cid
  · rfl
  · dsimp only
    rcases hp : dictGet st.pending cid with _ | p
    · rfl
    · split
      · rfl
      · split
        · split <;> rfl
        · rfl

theorem checkPending_length (st : BusState) (e : Event) :
    (checkPendingResponses st e).futures.length = st.futures.length := by
  unfold checkPendingResponses
  rcases hc : e.correlationId with _ | cid
  · rfl
  · dsimp only
    rcases hp : dictGet st.pending cid with _ | p
    · rfl
    · split
      · rfl
      · split
        · split
          · simp [List.length_set]
          · rfl
        · rfl

/-- A resolved (done) future slot is never overwritten. -/
theorem checkPending_done (st : BusState) (e : Event) (i : Nat) (v : Event)
    (hv : st.futures[i]? = some (some v)) :
    (checkPendingResponses st e).futures[i]? = some (some v) := by
  unfold checkPendingResponses
  rcases hc : e.correlationId with _ | cid
  · exact hv
  · dsimp only
    rcases hp : dictGet st.pending cid with _ | p
    · exact hv
    · split
      · exact hv
      · rename_i q heq
        split
        · split
          · rename_i hdone
            have hne : q.futureId ≠ i := by
              intro h
              rw [h, hv] at hdone
              simp at hdone
            simpa [List.getElem?_set_ne hne] using hv
          · exact hv
        · exact hv

theorem foldl_checkPending_done (arrivals : List Event) (st : BusState)
    (i : Nat) (v : Event) (hv : st.futures[i]? = some (some v)) :
    (arrivals.foldl checkPendingResponses st).futures[i]? = some (some v) := by
  induction arrivals generalizing st with
  | nil => exact hv
  | cons e rest ih => exact ih _ (checkPending_done st e i v hv)

theorem foldl_checkPending_pending (arrivals : List Event) (st : BusState) :
    (arrivals.foldl checkPendingResponses st).pending = st.pending := by
  induction arrivals generalizing st with
  | nil => rfl
  | cons e rest ih => rw [List.foldl_cons, ih, checkPending_pending]

theorem matchResp_iff (cid : String) (rts : List EventType) (e : Event) :
    matchResp cid rts e = true ↔ (e.correlationId = some cid ∧ e.type ∈ rts) := by
  simp [matchResp]

theorem lt_of_getElem?_some {α : Type} {l : List α} {n : Nat} {a : α}
    (h : l[n]? = some a) : n < l.length := by
  by_contra hge
  rw [List.getElem?_eq_none (by omega)] at h
  exact Option.noConfusion h

/-- If an event does not match the outstanding call (wrong correlation id or
type not awaited), dispatching it leaves the call's future unresolved. -/
theorem checkPending_unresolved (st : BusState) (e : Event)
    (cid : String) (rts : List EventType) (fid : Nat) (p : PendingResponse)
    (hentry : dictGet st.pending cid = some p)
    (hrts : p.responseTypes = rts) (hfid : p.futureId = fid)
    (hothers : ∀ q ∈ st.pending, q.2.futureId = fid → q.1 = cid)
    (hfut : st.futures[fid]? = some none)
    (hm : matchResp cid rts e = false) :
    (checkPendingResponses st e).futures[fid]? = some none := by
  unfold checkPendingResponses
  rcases hc : e.correlationId with _ | cid2
  · exact hfut
  · dsimp only
    rcases hp : dictGet st.pending cid2 with _ | q
    · exact hfut
    · split
      · exact hfut
      · rename_i q2 heq
        split
        · rename_i htype
          split
          · rename_i hdone
            have hq2 : q = q2 := by injection heq
            have hmem : (cid2, q2) ∈ st.pending := by
              have h1 := dictGet_mem hp
              rwa [hq2] at h1
            have hne : q2.futureId ≠ fid := by
              intro hEq
              have hkey : cid2 = cid := hothers (cid2, q2) hmem hEq
              subst hkey
              rw [hentry] at hp
              injection hp with hpq
              have : matchResp cid2 rts e = true := by
                rw [matchResp_iff]
                refine ⟨hc, ?_⟩
                rw [← hrts, hpq, hq2]
                exact htype
              rw [hm] at this
              exact Bool.noConfusion this
            rw [List.getElem?_set_ne hne]
            exact hfut
          · exact hfut
        · exact hfut

/-- Core first-matching-event-wins lemma: starting from a state holding the
call's unresolved entry, folding the dispatched events leaves the call's
future holding exactly the first matching arrival (or unresolved if none). -/
theorem foldl_checkPending_main (cid : String) (rts : List EventType) (fid : Nat)
    (arrivals : List Event) :
    ∀ (st : BusState) (p : PendingResponse),
      dictGet st.pending cid = some p →
      p.responseTypes = rts → p.futureId = fid →
      (∀ q ∈ st.pending, q.2.futureId = fid → q.1 = cid) →
      st.futures[fid]? = some none →
      (arrivals.foldl checkPendingResponses st).futures[fid]?
        = some (arrivals.find? (matchResp cid rts)) := by
  induction arrivals with
  | nil =>
    intro st p hentry hrts hfid hothers hfut
    simpa using hfut
  | cons e rest ih =>
    intro st p hentry hrts hfid hothers hfut
    rw [List.foldl_cons, List.find?_cons]
    rcases hm : matchResp cid rts e
    · dsimp only
      exact ih (checkPendingResponses st e) p
        (by rw [checkPending_pending]; exact hentry)
        hrts hfid
        (by rw [checkPending_pending]; exact hothers)
        (checkPending_unresolved st e cid rts fid p hentry hrts hfid hothers hfut hm)
    · dsimp only
      obtain ⟨hcid, htype⟩ := (matchResp_iff cid rts e).mp hm
      have hstep : checkPendingResponses st e
          = { st with futures := st.futures.set p.futureId (some e) } := by
        unfold checkPendingResponses
        rw [hcid]
        dsimp only
        rw [hentry]
        dsimp only
        rw [if_pos (by rw [hrts]; exact htype), if_pos (by rw [hfid]; exact hfut)]
      rw [hstep]
      apply foldl_checkPending_done
      have hlt : fid < st.futures.length := lt_of_getElem?_some hfut
      rw [hfid]
      dsimp only
      rw [List.getElem?_set_self hlt]

/-- Result and cleanup behaviour of `publish_and_wait`: the returned value is
the first dispatched event carrying the call's correlation id and one of the
awaited types (`none` when there is no such event, i.e. the timeout path),
and the pending entry for the correlation id is gone afterwards. -/
theorem publishAndWait_spec (st : BusState) (e : Event) (freshCid : String)
    (rts : List EventType) (timeout : ℚ) (arrivals : List Event) (hwf : BusWF st) :
    (publishAndWait st e freshCid rts timeout arrivals).1
      = arrivals.find? (matchResp (pawCid e freshCid) rts) ∧
    dictGet (publishAndWait st e freshCid rts timeout arrivals).2.pending
        (pawCid e freshCid) = none := by
  have hfut1 : ((st.futures ++ [none])[st.futures.length]?) = some none :=
    List.getElem?_concat_length _ _
  have hothers1 : ∀ q ∈ dictInsert (pawCid e freshCid)
        ⟨pawCid e freshCid, rts, st.futures.length, timeout⟩ st.pending,
      q.2.futureId = st.futures.length → q.1 = pawCid e freshCid := by
    intro q hq hfid
    rcases mem_dictInsert hq with h | ⟨hmem, hkey⟩
    · rw [h]
    · exfalso
      have := hwf q hmem
      omega
  have hmain := foldl_checkPending_main (pawCid e freshCid) rts st.futures.length arrivals
      { pending := dictInsert (pawCid e freshCid)
          ⟨pawCid e freshCid, rts, st.futures.length, timeout⟩ st.pending,
        futures := st.futures ++ [none] }
      ⟨pawCid e freshCid, rts, st.futures.length, timeout⟩
      (dictGet_insert_self _ _ _) rfl rfl hothers1 hfut1
  constructor
  · have hval : (publishAndWait st e freshCid rts timeout arrivals).1
        = ((arrivals.foldl checkPendingResponses
            { pending := dictInsert (pawCid e freshCid)
                ⟨pawCid e freshCid, rts, st.futures.length, timeout⟩ st.pending,
              futures := st.futures ++ [none] }).futures[st.futures.length]?).getD none := rfl
    rw [hval, hmain, Option.getD_some]
  · exact dictGet_remove_self _ _

/-- **C3.**  For every `publish_and_wait` call: the future is resolved by the
first dispatched event whose correlation id equals the call's and whose type
is among the awaited response types; a second such matching event dispatched
afterwards is ignored — the call returns the first event, and its result is
the same as in the run without the second event. -/
theorem claim_C3 (st : BusState) (e : Event) (freshCid : String) (rts : List EventType)
    (timeout : ℚ) (pre mid : List Event) (e1 e2 : Event) (hwf : BusWF st)
    (hpre : ∀ x ∈ pre, matchResp (pawCid e freshCid) rts x = false)
    (h1 : matchResp (pawCid e freshCid) rts e1 = true)
    (h2 : matchResp (pawCid e freshCid) rts e2 = true) :
    (publishAndWait st e freshCid rts timeout (pre ++ e1 :: (mid ++ [e2]))).1 = some e1 ∧
    (publishAndWait st e freshCid rts timeout (pre ++ e1 :: mid)).1 = some e1 := by
  have hfind : ∀ tail : List Event,
      (pre ++ e1 :: tail).find? (matchResp (pawCid e freshCid) rts) = some e1 := by
    intro tail
    rw [List.find?_append]
    have hnone : pre.find? (matchResp (pawCid e freshCid) rts) = none :=
      List.find?_eq_none.mpr (fun x hx => by simp [hpre x hx])
    rw [hnone, Option.none_or, List.find?_cons_of_pos _ h1]
  exact ⟨by rw [(publishAndWait_spec st e freshCid rts timeout _ hwf).1, hfind],
         by rw [(publishAndWait_spec st e freshCid rts timeout _ hwf).1, hfind]⟩

/-- Witness for C3: an empty bus, a delegation event with correlation
`cor_1`, and two `lead.complete` responses in quick succession — the call
returns the first. -/
theorem claim_C3_witness :
    (publishAndWait ⟨[], []⟩
        { type := .orchestratorDelegate, data := [], source := "orchestrator",
          correlationId := some "cor_1" }
        "cor_fresh" [.leadComplete, .leadError] 120
        ([] ++ { type := EventType.leadComplete,
                 data := [("result", PyValue.str "done")], source := "code_lead",
                 correlationId := some "cor_1" } ::
          ([] ++ [{ type := EventType.leadComplete,
                    data := [("result", PyValue.str "again")], source := "code_lead",
                    correlationId := some "cor_1" }]))).1
      = some { type := EventType.leadComplete,
               data := [("result", PyValue.str "done")], source := "code_lead",
               correlationId := some "cor_1" } := by
  have h := claim_C3 ⟨[], []⟩
      { type := .orchestratorDelegate, data := [], source := "orchestrator",
        correlationId := some "cor_1" }
      "cor_fresh" [.leadComplete, .leadError] 120 [] []
      { type := EventType.leadComplete, data := [("result", PyValue.str "done")],
        source := "code_lead", correlationId := some "cor_1" }
      { type := EventType.leadComplete, data := [("result", PyValue.str "again")],
        source := "code_lead", correlationId := some "cor_1" }
      (fun p hp => absurd hp (List.not_mem_nil p))
      (fun x hx => absurd hx (List.not_mem_nil x))
      (by decide) (by decide)
  exact h.1

/-- **C4.**  When no matching response event is dispatched during the wait,
`publish_and_wait` returns `None` (the timeout path, which never raises), the
pending entry for the call's correlation id has been removed on return, and a
matching event dispatched after the return resolves nothing: it leaves the
bus state entirely unchanged. -/
theorem claim_C4 (st : BusState) (e : Event) (freshCid : String) (rts : List EventType)
    (timeout : ℚ) (arrivals : List Event) (hwf : BusWF st)
    (hnone : ∀ x ∈ arrivals, matchResp (pawCid e freshCid) rts x = false) :
    (publishAndWait st e freshCid rts timeout arrivals).1 = none ∧
    dictGet (publishAndWait st e freshCid rts timeout arrivals).2.pending
        (pawCid e freshCid) = none ∧
    ∀ late : Event, late.correlationId = some (pawCid e freshCid) →
      checkPendingResponses (publishAndWait st e freshCid rts timeout arrivals).2 late
        = (publishAndWait st e freshCid rts timeout arrivals).2 := by
  obtain ⟨hres, hpend⟩ := publishAndWait_spec st e freshCid rts timeout arrivals hwf
  refine ⟨?_, hpend, ?_⟩
  · rw [hres]
    exact List.find?_eq_none.mpr (fun x hx => by simp [hnone x hx])
  · intro late hlate
    unfold checkPendingResponses
    rw [hlate]
    dsimp only
    rw [hpend]

/-- Witness for C4: an empty bus; the only dispatched events are the request
itself and an unrelated progress event, so the call times out with `None`,
the pending table is empty afterwards, and a late matching response changes
nothing. -/
theorem claim_C4_witness :
    (publishAndWait ⟨[], []⟩
        { type := .orchestratorDelegate, data := [], source := "orchestrator",
          correlationId := some "cor_2" }
        "cor_fresh" [.leadComplete, .leadError] 5
        [{ type := .orchestratorDelegate, data := [], source := "orchestrator",
           correlationId := some "cor_2" },
         { type := .leadProgress, data := [], source := "code_lead",
           correlationId := some "cor_2" }]).1 = none ∧
    checkPendingResponses
        (publishAndWait ⟨[], []⟩
          { type := .orchestratorDelegate, data := [], source := "orchestrator",
            correlationId := some "cor_2" }
          "cor_fresh" [.leadComplete, .leadError] 5
          [{ type := .orchestratorDelegate, data := [], source := "orchestrator",
             correlationId := some "cor_2" },
           { type := .leadProgress, data := [], source := "code_lead",
             correlationId := some "cor_2" }]).2
        { type := EventType.leadComplete, data := [], source := "code_lead",
          correlationId := some "cor_2" }
      = (publishAndWait ⟨[], []⟩
          { type := .orchestratorDelegate, data := [], source := "orchestrator",
            correlationId := some "cor_2" }
          "cor_fresh" [.leadComplete, .leadError] 5
          [{ type := .orchestratorDelegate, data := [], source := "orchestrator",
             correlationId := some "cor_2" },
           { type := .leadProgress, data := [], source := "code_lead",
             correlationId := some "cor_2" }]).2 := by
  have h := claim_C4 ⟨[], []⟩
      { type := .orchestratorDelegate, data := [], source := "orchestrator",
        correlationId := some "cor_2" }
      "cor_fresh" [.leadComplete, .leadError] 5
      [{ type := .orchestratorDelegate, data := [], source := "orchestrator",
         correlationId := some "cor_2" },
       { type := .leadProgress, data := [], source := "code_lead",
         correlationId := some "cor_2" }]
      (fun p hp => absurd hp (List.not_mem_nil p))
      (by decide)
  exact ⟨h.1, h.2.2 _ (by decide)⟩

/-- If no pending entry points at slot `i`, dispatching any event leaves
slot `i` untouched. -/
theorem checkPending_other_index (st : BusState) (ev : Event) (i : Nat)
    (h : ∀ q ∈ st.pending, q.2.futureId ≠ i) :
    (checkPendingResponses st ev).futures[i]? = st.futures[i]? := by
  unfold checkPendingResponses
  rcases hc : ev.correlationId with _ | cid2
  · rfl
  · dsimp only
    rcases hp : dictGet st.pending cid2 with _ | q
    · rfl
    · split
      · rfl
      · rename_i q2 heq
        split
        · split
          · have hq2 : q = q2 := by injection heq
            have hmem : (cid2, q2) ∈ st.pending := by
              have h1 := dictGet_mem hp
              rwa [hq2] at h1
            have hne := h (cid2, q2) hmem
            dsimp only
            rw [List.getElem?_set_ne hne]
          · rfl
        · rfl

/-- **C10.**  When a second `publish_and_wait` call registers a
`PendingResponse` for a correlation id while a first call's entry is still
pending: the registration replaces the first entry (the table now maps the
id to the second call's entry), no dispatched event can resolve the first
call's future any more, and the first call's unconditional cleanup removes
the second call's entry too, after which a matching response resolves
neither call (the state is unchanged). -/
theorem claim_C10 (st : BusState) (cid : String) (rts1 rts2 : List EventType)
    (t1 t2 : ℚ) (f1 f2 : Nat) (st1 st2 : BusState) (hwf : BusWF st)
    (hr1 : pawRegister st cid rts1 t1 = (f1, st1))
    (hr2 : pawRegister st1 cid rts2 t2 = (f2, st2)) :
    f1 ≠ f2 ∧
    dictGet st2.pending cid = some ⟨cid, rts2, f2, t2⟩ ∧
    (∀ ev : Event, (checkPendingResponses st2 ev).futures[f1]? = st2.futures[f1]?) ∧
    dictGet (pawCleanup st2 cid).pending cid = none ∧
    (∀ ev : Event, ev.correlationId = some cid →
        checkPendingResponses (pawCleanup st2 cid) ev = pawCleanup st2 cid) := by
  unfold pawRegister at hr1 hr2
  injection hr1 with hf1 hst1
  injection hr2 with hf2 hst2
  subst hst1
  dsimp only at hf2 hst2
  subst hst2
  have hf2len : f2 = st.futures.length + 1 := by
    rw [← hf2]
    simp
  have hf1len : f1 = st.futures.length := hf1.symm
  refine ⟨by omega, ?_, ?_, dictGet_remove_self _ _, ?_⟩
  · rw [← hf2]
    exact dictGet_insert_self _ _ _
  · intro ev
    apply checkPending_other_index
    intro q hq
    rcases mem_dictInsert hq with h | ⟨hq1, hk1⟩
    · rw [h]
      dsimp only
      omega
    · rcases mem_dictInsert hq1 with h | ⟨hq2, hk2⟩
      · rw [h] at hk1
        simp at hk1
      · have := hwf q hq2
        omega
  · intro ev hev
    unfold checkPendingResponses pawCleanup
    rw [hev]
    dsimp only
    rw [dictGet_remove_self]

/-- Witness for C10 at a concrete interleaving on an empty bus. -/
theorem claim_C10_witness :
    (pawRegister (⟨[], []⟩ : BusState) "cor_9" [.leadComplete] 5).1 ≠
      (pawRegister (pawRegister (⟨[], []⟩ : BusState) "cor_9" [.leadComplete] 5).2
        "cor_9" [.leadComplete, .leadError] 7).1 ∧
    dictGet (pawRegister (pawRegister (⟨[], []⟩ : BusState) "cor_9" [.leadComplete] 5).2
        "cor_9" [.leadComplete, .leadError] 7).2.pending "cor_9"
      = some ⟨"cor_9", [.leadComplete, .leadError],
          (pawRegister (pawRegister (⟨[], []⟩ : BusState) "cor_9" [.leadComplete] 5).2
            "cor_9" [.leadComplete, .leadError] 7).1, 7⟩ := by
  have h := claim_C10 (⟨[], []⟩ : BusState) "cor_9" [.leadComplete]
      [.leadComplete, .leadError] 5 7
      (pawRegister (⟨[], []⟩ : BusState) "cor_9" [.leadComplete] 5).1
      (pawRegister (pawRegister (⟨[], []⟩ : BusState) "cor_9" [.leadComplete] 5).2
        "cor_9" [.leadComplete, .leadError] 7).1
      (pawRegister (⟨[], []⟩ : BusState) "cor_9" [.leadComplete] 5).2
      (pawRegister (pawRegister (⟨[], []⟩ : BusState) "cor_9" [.leadComplete] 5).2
        "cor_9" [.leadComplete, .leadError] 7).2
      (fun p hp => absurd hp (List.not_mem_nil p)) rfl rfl
  exact ⟨h.1, h.2.1⟩

/-! ## Wildcard subscriptions — `Subscription.matches` / `EventBus._get_handlers`

`fnmatch.fnmatch(name, pattern)` on POSIX (where `os.path.normcase` is the
identity) matches `name` against the shell-glob `pattern`: `*` matches any
(possibly empty) sequence, `?` any single character, `[seq]` a character
class (leading `!` negates, `-` ranges, a `]` right after `[`/`[!` is
literal content, an unterminated `[` is a literal `[`). -/

/-- Scan for the `]` terminating a character class (the inner scan loop of
`fnmatch.translate`); returns the class content and the remainder. -/
def scanClass : List Char → Option (List Char × List Char)
  | [] => none
  | c :: rest =>
    if c = ']' then some ([], rest)
    else match scanClass rest with
      | some (cs, r) => some (c :: cs, r)
      | none => none

/-- Class body scan: a `]` in first position is literal content. -/
def scanClassBody (t : List Char) : Option (List Char × List Char) :=
  match t with
  | ']' :: t2 =>
    (match scanClass t2 with
     | some (cs, rest) => some (']' :: cs, rest)
     | none => none)
  | _ => scanClass t

/-- Parse what follows a `[`: optional negating `!`, then the class body.
`none` means the class is unterminated and the `[` is literal. -/
def splitClass (ps : List Char) : Option (Bool × List Char × List Char) :=
  match ps with
  | '!' :: t =>
    (match scanClassBody t with
     | some (cs, rest) => some (true, cs, rest)
     | none => none)
  | t =>
    (match scanClassBody t with
     | some (cs, rest) => some (false, cs, rest)
     | none => none)

/-- Elements of a class body as ranges (`a-b`; a lone char is a
singleton range; a trailing or leading `-` is literal). -/
def classElems : List Char → List (Char × Char)
  | a :: '-' :: b :: rest => (a, b) :: classElems rest
  | a :: rest => (a, a) :: classElems rest
  | [] => []

def inClass (neg : Bool) (cs : List Char) (c : Char) : Bool :=
  let hit := (classElems cs).any (fun p => p.1 ≤ c && c ≤ p.2)
  if neg then !hit else hit

/-- Shell-glob matching of a pattern against a string, as compiled by
`fnmatch.translate` (`*` → `.*`, `?` → `.`, classes, everything else
literal) and anchored at both ends. -/
def globMatch (ps : List Char) (s : List Char) : Bool :=
  match ps, s with
  | [], [] => true
  | [], _ :: _ => false
  | '*' :: ps2, [] => globMatch ps2 []
  | '*' :: ps2, c :: s2 => globMatch ps2 (c :: s2) || globMatch ('*' :: ps2) s2
  | '?' :: _, [] => false
  | '?' :: ps2, _ :: s2 => globMatch ps2 s2
  | '[' :: _, [] => false
  | '[' :: ps2, c :: s2 =>
    (match splitClass ps2 with
     | some (neg, cs, rest) => inClass neg cs c && globMatch rest s2
     | none => (c == '[') && globMatch ps2 s2)
  | _ :: _, [] => false
  | p :: ps2, c :: s2 => (p == c) && globMatch ps2 s2
termination_by (s.length, ps.length)

/-- `fnmatch.fnmatch(name, pattern)`. -/
def fnmatchStr (name : String) (pat : String) : Bool := globMatch pat.data name.data

/-- `Subscription` (the handler callback is modelled by an opaque
identifier: only which handlers fire matters). -/
structure Subscription where
  pattern : String
  handler : Nat
  id : String := ""
deriving DecidableEq

/-- `Subscription.matches`. -/
def Subscription.matches (sub : Subscription) (eventType : String) : Bool :=
  if sub.pattern == "*" then true
  else if sub.pattern == eventType then true
  else fnmatchStr eventType sub.pattern

/-- `EventBus._get_handlers`: every handler of every subscription whose
pattern matches, iterating the subscription dict.  `_dispatch` invokes
exactly this list of handlers (concurrently) for the event. -/
def getHandlers (subs : List (String × List Subscription)) (eventType : String) :
    List Nat :=
  subs.flatMap (fun pr =>
    (pr.2.filter (fun sub => sub.matches eventType)).map (fun sub => sub.handler))

theorem Subscription.matches_iff (sub : Subscription) (t : String) :
    sub.matches t = true ↔
      (sub.pattern = "*" ∨ sub.pattern = t ∨ fnmatchStr t sub.pattern = true) := by
  unfold Subscription.matches
  by_cases h1 : sub.pattern = "*" <;> by_cases h2 : sub.pattern = t <;>
    simp [h1, h2]

theorem mem_getHandlers (subs : List (String × List Subscription)) (t : String)
    (h : Nat) :
    h ∈ getHandlers subs t ↔
      ∃ pr ∈ subs, ∃ sub ∈ pr.2, sub.handler = h ∧ sub.matches t = true := by
  unfold getHandlers
  simp only [List.mem_flatMap, List.mem_map, List.mem_filter]
  constructor
  · rintro ⟨pr, hpr, sub, ⟨hsub, hm⟩, hh⟩
    exact ⟨pr, hpr, sub, hsub, hh, hm⟩
  · rintro ⟨pr, hpr, sub, hsub, hh, hm⟩
    exact ⟨pr, hpr, sub, ⟨hsub, hm⟩, hh⟩

/-- **C5.**  A handler is invoked for a dispatched event iff some registered
subscription carries it and the subscription's pattern `P` satisfies:
`P = "*"`, or `P` equals the event's type string, or the type matches `P`
under shell-glob (fnmatch) semantics.  Concretely, `worker.*` matches
`worker.progress` and `worker.complete` but not `lead.progress`. -/
theorem claim_C5 (subs : List (String × List Subscription)) (t : String) (h : Nat) :
    (h ∈ getHandlers subs t ↔
      ∃ pr ∈ subs, ∃ sub ∈ pr.2, sub.handler = h ∧
        (sub.pattern = "*" ∨ sub.pattern = t ∨ fnmatchStr t sub.pattern = true)) ∧
    fnmatchStr "worker.progress" "worker.*" = true ∧
    fnmatchStr "worker.complete" "worker.*" = true ∧
    fnmatchStr "lead.progress" "worker.*" = false := by
  refine ⟨?_, ?_, ?_, ?_⟩
  · rw [mem_getHandlers]
    constructor
    · rintro ⟨pr, hpr, sub, hsub, hh, hm⟩
      exact ⟨pr, hpr, sub, hsub, hh, (Subscription.matches_iff sub t).mp hm⟩
    · rintro ⟨pr, hpr, sub, hsub, hh, hm⟩
      exact ⟨pr, hpr, sub, hsub, hh, (Subscription.matches_iff sub t).mpr hm⟩
  · simp [fnmatchStr, globMatch]
  · simp [fnmatchStr, globMatch]
  · simp [fnmatchStr, globMatch]

/-! ## Middleware pipeline — `EventBus._apply_middleware` (C6)

The Python chain builder is

    async def create_next(index):
        async def next_fn(evt):
            if index < len(mw): await mw[index](evt, await create_next(index + 1))
            else: await final(evt)
        return next_fn
    if mw: first_next = await create_next(0); await mw[0](event, first_next)
    else: await final(event)

Under the claim's assumption that every middleware awaits `next(event)`
exactly once, one dispatch produces a deterministic invocation sequence on
the single event loop, recorded below: `some i` is an invocation of
middleware `i`, `none` the terminal `final` continuation (which invokes all
matching handlers concurrently via `gather`, once). -/

/-- Trace produced by invoking the `next_fn` closure of `create_next index`
on a bus with `k` middlewares (each awaiting its own `next` exactly once). -/
def nextFnTrace (k : Nat) (index : Nat) : List (Option Nat) :=
  if index < k then some index :: nextFnTrace k (index + 1) else [none]
termination_by k - index

/-- Trace of `_apply_middleware` for one dispatch: with middleware present,
`middleware[0]` is invoked with `first_next = create_next(0)` — not
`create_next(1)`. -/
def applyMiddlewareTrace (k : Nat) : List (Option Nat) :=
  if 0 < k then some 0 :: nextFnTrace k 0 else [none]

/-- **C6 (code bug).**  With `k = 1` middleware that awaits `next(event)`
exactly once, a single dispatch invokes that middleware **twice** (because
`middleware[0]` receives `create_next(0)` as its continuation, which invokes
`middleware[0]` again), then the terminal handler invocation once; with
`k = 2` the first middleware runs twice and the second once.  This refutes
"each middleware exactly once, in registration order"; the terminal
continuation does run exactly once. -/
theorem claim_C6 :
    applyMiddlewareTrace 1 = [some 0, some 0, none] ∧
    (applyMiddlewareTrace 1).count (some 0) = 2 ∧
    applyMiddlewareTrace 2 = [some 0, some 0, some 1, none] ∧
    (applyMiddlewareTrace 2).count (some 0) = 2 ∧
    (applyMiddlewareTrace 2).count (some 1) = 1 ∧
    (applyMiddlewareTrace 2).count none = 1 := by
  have h1 : applyMiddlewareTrace 1 = [some 0, some 0, none] := by
    simp [applyMiddlewareTrace, nextFnTrace]
  have h2 : applyMiddlewareTrace 2 = [some 0, some 0, some 1, none] := by
    simp [applyMiddlewareTrace, nextFnTrace]
  refine ⟨h1, ?_, h2, ?_, ?_, ?_⟩
  · rw [h1]; decide
  · rw [h2]; decide
  · rw [h2]; decide
  · rw [h2]; decide

/-! ## `delegate_to_lead` — `backend/process_manager/agent_comm.py` (C7) -/

inductive LeadType where
  | code
  | research
  | task
deriving DecidableEq

def LeadType.value : LeadType → String
  | .code => "code"
  | .research => "research"
  | .task => "task"

/-- `DelegationResult` dataclass.  `result`/`error`/`files_modified` hold
whatever `response.data.get(...)` returned, so they are `PyValue`-shaped. -/
structure DelegationResult where
  success : Bool
  result : Option PyValue := none
  files_modified : PyValue := .strList []
  error : Option PyValue := none
  lead : Option LeadType := none
  task_id : Option String := none
  duration_ms : Option Int := none
deriving DecidableEq

/-- The response handling of `delegate_to_lead` (lines 191–233): the
function's `try/except` converts every outcome into a `DelegationResult`,
so the call never raises.  `response` is what the inner
`publish_and_wait` returned (`none` = timeout); `durationMs` is the
wall-clock measurement, passed in as data. -/
def delegateToLeadOutcome (lead : LeadType) (taskId : String) (durationMs : Int)
    (response : Option Event) : DelegationResult :=
  match response with
  | none =>
    { success := false,
      error := some (.str "Delegation timed out"),
      lead := some lead, task_id := some taskId, duration_ms := some durationMs }
  | some r =>
    if r.type = .leadComplete then
      { success := true,
        result := dictGet r.data "result",
        files_modified := (dictGet r.data "files_modified").getD (.strList []),
        lead := some lead, task_id := some taskId, duration_ms := some durationMs }
    else
      { success := false,
        error := some ((dictGet r.data "error").getD (.str "Unknown error")),
        lead := some lead, task_id := some taskId, duration_ms := some durationMs }

/-- **C7.**  `delegate_to_lead` never raises: a `None` response (timeout)
yields `success = false` with error `"Delegation timed out"` and
`lead`/`task_id`/`duration_ms` set; a `lead.complete` response yields
`success = true` with `result` and `files_modified` taken from the response
data; a `lead.error` response yields `success = false` with the response's
error message. -/
theorem claim_C7 (lead : LeadType) (taskId : String) (durationMs : Int)
    (response : Option Event) :
    (response = none →
      delegateToLeadOutcome lead taskId durationMs response
        = { success := false, error := some (.str "Delegation timed out"),
            lead := some lead, task_id := some taskId,
            duration_ms := some durationMs }) ∧
    (∀ r, response = some r → r.type = .leadComplete →
      (delegateToLeadOutcome lead taskId durationMs response).success = true ∧
      (delegateToLeadOutcome lead taskId durationMs response).result
          = dictGet r.data "result" ∧
      (delegateToLeadOutcome lead taskId durationMs response).files_modified
          = (dictGet r.data "files_modified").getD (.strList []) ∧
      (delegateToLeadOutcome lead taskId durationMs response).lead = some lead ∧
      (delegateToLeadOutcome lead taskId durationMs response).task_id = some taskId ∧
      (delegateToLeadOutcome lead taskId durationMs response).duration_ms
          = some durationMs) ∧
    (∀ r, response = some r → r.type = .leadError →
      (delegateToLeadOutcome lead taskId durationMs response).success = false ∧
      ∀ msg, dictGet r.data "error" = some msg →
        (delegateToLeadOutcome lead taskId durationMs response).error = some msg) := by
  refine ⟨?_, ?_, ?_⟩
  · rintro rfl
    rfl
  · rintro r rfl htype
    simp [delegateToLeadOutcome, htype]
  · rintro r rfl htype
    have hne : ¬(r.type = EventType.leadComplete) := by
      rw [htype]
      intro hcon
      exact EventType.noConfusion hcon
    constructor
    · simp [delegateToLeadOutcome, hne]
    · intro msg hmsg
      simp [delegateToLeadOutcome, hne, hmsg]

/-- Witness for C7: timeout, completion, and error responses at concrete
inputs. -/
theorem claim_C7_witness :
    delegateToLeadOutcome .code "del_1" 5000 none
      = { success := false, error := some (.str "Delegation timed out"),
          lead := some .code, task_id := some "del_1",
          duration_ms := some 5000 } ∧
    (delegateToLeadOutcome .code "del_2" 120
        (some { type := .leadComplete, data := [("result", .str "done")],
                source := "code_lead" })).success = true ∧
    (delegateToLeadOutcome .code "del_2" 120
        (some { type := .leadComplete, data := [("result", .str "done")],
                source := "code_lead" })).result = some (.str "done") ∧
    (delegateToLeadOutcome .code "del_3" 80
        (some { type := .leadError, data := [("error", .str "boom")],
                source := "code_lead" })).success = false ∧
    (delegateToLeadOutcome .code "del_3" 80
        (some { type := .leadError, data := [("error", .str "boom")],
                source := "code_lead" })).error = some (.str "boom") := by
  have hc := (claim_C7 .code "del_2" 120
      (some { type := .leadComplete, data := [("result", .str "done")],
              source := "code_lead" })).2.1 _ rfl rfl
  have he := (claim_C7 .code "del_3" 80
      (some { type := .leadError, data := [("error", .str "boom")],
              source := "code_lead" })).2.2 _ rfl rfl
  refine ⟨(claim_C7 .code "del_1" 5000 none).1 rfl, hc.1, ?_, he.1,
    he.2 (.str "boom") (by decide)⟩
  rw [hc.2.1]
  decide

/-! ## Audit statistics — `backend/permissions/audit.py` (C8) -/

/-- Python `str.replace(old, new)` on character lists: replaces all
non-overlapping occurrences left to right (`old` is nonempty here). -/
def listReplace (pat rep : List Char) : List Char → List Char
  | [] => []
  | c :: rest =>
    if h : pat ≠ [] ∧ List.isPrefixOf pat (c :: rest) then
      rep ++ listReplace pat rep ((c :: rest).drop pat.length)
    else c :: listReplace pat rep rest
termination_by s => s.length
decreasing_by
  · simp only [List.length_drop, List.length_cons]
    have : 0 < pat.length := List.length_pos.mpr h.1
    omega
  · simp

/-- `s.replace(pat, rep)`. -/
def strReplace (s pat rep : String) : String :=
  ⟨listReplace pat.data rep.data s.data⟩

/-- Whether `pat` occurs as a contiguous substring. -/
def hasSub (pat : List Char) : List Char → Bool
  | [] => pat.isEmpty
  | c :: rest => List.isPrefixOf pat (c :: rest) || hasSub pat rest

theorem listReplace_no_occur (pat rep s : List Char) (h : hasSub pat s = false) :
    listReplace pat rep s = s := by
  induction s with
  | nil => simp [listReplace]
  | cons c rest ih =>
    rw [hasSub, Bool.or_eq_false_iff] at h
    rw [listReplace, dif_neg (by simp [h.1]), ih h.2]

/-- `AuditEntry` row (the `audit_log` table columns). -/
structure AuditEntry where
  id : Option Nat := none
  timestamp : String
  action : String
  agent_name : String := ""
  tool_name : String := ""
  risk_level : String := ""
  input_data : String := ""
  result : String := ""
  approved_by : Option String := none
  denial_reason : Option String := none
  metadata : String := ""
deriving DecidableEq

/-- The `AuditAction` enum values, in declaration order (`for action in
AuditAction` iterates in this order). -/
def AUDIT_ACTIONS : List String := [
  "tool_executed", "tool_denied", "approval_requested", "approval_granted",
  "approval_denied", "approval_timeout", "permission_check", "preset_changed"]

/-- The risk-level strings `get_statistics` iterates. -/
def RISK_LEVEL_STRINGS : List String := ["low", "medium", "high", "critical"]

/-- Interpreter for the COUNT queries `get_statistics` executes against the
append-only `audit_log` table (modelled as the list of inserted rows).
sqlite raises `ProgrammingError` when the number of `?` placeholders differs
from the number of bound parameters; that, and any unsupported query shape,
is modelled as `none`. -/
def evalCountQuery (db : List AuditEntry) (q : String) (params : List String) :
    Option Nat :=
  if q.data.count '?' ≠ params.length then none
  else if q = "SELECT COUNT(*) FROM audit_log" then some db.length
  else if q = "SELECT COUNT(*) FROM audit_log WHERE timestamp >= ?" then
    (match params with
     | [p] => some (db.countP (fun en => decide (p ≤ en.timestamp)))
     | _ => none)
  else none

/-- Result shape of `AuditLog.get_statistics`. -/
structure AuditStats where
  total_entries : Nat
  by_action : List (String × Nat)
  by_risk_level : List (String × Nat)
  since : Option String
deriving DecidableEq

/-- `AuditLog.get_statistics`, with the SQL strings built exactly as the code
builds them: `base_query` is `SELECT COUNT(*) FROM audit_log` (plus the
`WHERE timestamp >= ?` filter when `since` is given) and carries **no**
`WHERE 1=1` clause, so the per-action / per-risk `.replace("1=1", …)` calls
(the idiom `get_entries` applies to its `WHERE 1=1` base) have no effect,
and with `since` given the appended `AND timestamp >= ?` yields two
placeholders for one parameter.  `none` models a raised sqlite error. -/
def getStatistics (db : List AuditEntry) (since : Option String) :
    Option AuditStats :=
  let baseQuery := "SELECT COUNT(*) FROM audit_log" ++
    (match since with | some _ => " WHERE timestamp >= ?" | none => "")
  let params : List String := match since with | some s => [s] | none => []
  let suffix : String := match since with | some _ => " AND timestamp >= ?" | none => ""
  do
    let total ← evalCountQuery db baseQuery params
    let byAction ← AUDIT_ACTIONS.foldlM (fun acc a => do
        let q := strReplace baseQuery "1=1" ("action = \x27" ++ a ++ "\x27") ++ suffix
        let c ← evalCountQuery db q params
        pure (if c > 0 then acc ++ [(a, c)] else acc)) []
    let byRisk ← RISK_LEVEL_STRINGS.foldlM (fun acc lv => do
        let q := strReplace baseQuery "1=1" ("risk_level = \x27" ++ lv ++ "\x27") ++ suffix
        let c ← evalCountQuery db q params
        pure (if c > 0 then acc ++ [(lv, c)] else acc)) []
    pure ⟨total, byAction, byRisk, since⟩

/-- Second definition following the claim's words, for comparison: for each
audit action, the count of entries whose action column equals that action,
restricted to `timestamp >= since`; zero counts omitted. -/
def specSince (since : Option String) (en : AuditEntry) : Bool :=
  match since with
  | some s => decide (s ≤ en.timestamp)
  | none => true

def specByAction (db : List AuditEntry) (since : Option String) :
    List (String × Nat) :=
  AUDIT_ACTIONS.foldl (fun acc a =>
    let c := db.countP (fun en => (en.action == a) && specSince since en)
    if c > 0 then acc ++ [(a, c)] else acc) []

def specByRiskLevel (db : List AuditEntry) (since : Option String) :
    List (String × Nat) :=
  RISK_LEVEL_STRINGS.foldl (fun acc lv =>
    let c := db.countP (fun en => (en.risk_level == lv) && specSince since en)
    if c > 0 then acc ++ [(lv, c)] else acc) []

/-- Two rows with different actions and risk levels. -/
def sampleAudit : List AuditEntry := [
  { timestamp := "2025-01-01T00:00:00", action := "tool_executed",
    agent_name := "task_lead", tool_name := "read_file", risk_level := "low" },
  { timestamp := "2025-01-01T00:00:01", action := "permission_check",
    agent_name := "task_lead", tool_name := "execute_command",
    risk_level := "high" }]

/-- **C8 (code bug).**  On a log holding one `tool_executed` LOW row and one
`permission_check` HIGH row and `since = None`, `get_statistics` reports
**every** audit action with count 2 and **every** risk level with count 2
(the per-action/per-risk queries degenerate to the unfiltered total, because
`base_query` lacks the `WHERE 1=1` clause that `.replace("1=1", …)` expects),
whereas the claimed per-column counts are 1 for the two present values and
omission for the rest; and with `since` given the malformed two-placeholder
query makes the call raise. -/
theorem claim_C8 :
    getStatistics sampleAudit none
      = some { total_entries := 2,
               by_action := [("tool_executed", 2), ("tool_denied", 2),
                 ("approval_requested", 2), ("approval_granted", 2),
                 ("approval_denied", 2), ("approval_timeout", 2),
                 ("permission_check", 2), ("preset_changed", 2)],
               by_risk_level := [("low", 2), ("medium", 2), ("high", 2),
                 ("critical", 2)],
               since := none } ∧
    specByAction sampleAudit none = [("tool_executed", 1), ("permission_check", 1)] ∧
    specByRiskLevel sampleAudit none = [("low", 1), ("high", 1)] ∧
    getStatistics sampleAudit (some "2025-01-01T00:00:00") = none := by
  have hno1 : ∀ rep : String,
      strReplace ("SELECT COUNT(*) FROM audit_log" ++ "") "1=1" rep
        = "SELECT COUNT(*) FROM audit_log" := by
    intro rep
    unfold strReplace
    apply String.ext
    dsimp only
    rw [listReplace_no_occur _ _ _ (by decide)]
    decide
  have hno2 : ∀ rep : String,
      strReplace ("SELECT COUNT(*) FROM audit_log" ++ " WHERE timestamp >= ?") "1=1" rep
        = "SELECT COUNT(*) FROM audit_log WHERE timestamp >= ?" := by
    intro rep
    unfold strReplace
    apply String.ext
    dsimp only
    rw [listReplace_no_occur _ _ _ (by decide)]
    decide
  refine ⟨?_, by decide, by decide, ?_⟩
  · unfold getStatistics
    simp only [hno1]
    decide
  · unfold getStatistics
    simp only [hno2]
    decide

/-! ## UI payload transformation — `backend/process_manager/ui_streamer.py` (C9) -/

theorem dictGet_map_other {α : Type} (k k2 : String) (v : α)
    (d : List (String × α)) (hne : ¬(k2 = k)) :
    dictGet (d.map (fun p => if p.1 == k then (k, v) else p)) k2 = dictGet d k2 := by
  have hmiss : (k == k2) = false := beq_eq_false_iff_ne.mpr (fun h => hne h.symm)
  induction d with
  | nil => rfl
  | cons p rest ih =>
    rw [List.map_cons]
    by_cases hp : (p.1 == k) = true
    · rw [if_pos hp]
      have hpk : p.1 = k := by simpa using hp
      rw [dictGet_cons_miss _ _ _ hmiss, dictGet_cons_miss _ _ _ (by rw [hpk]; exact hmiss)]
      exact ih
    · rw [if_neg hp]
      by_cases hp2 : (p.1 == k2) = true
      · rw [dictGet_cons_hit _ _ _ hp2, dictGet_cons_hit _ _ _ hp2]
      · rw [dictGet_cons_miss _ _ _ (by simpa using hp2),
            dictGet_cons_miss _ _ _ (by simpa using hp2)]
        exact ih

theorem dictGet_append_other {α : Type} (k k2 : String) (v : α)
    (d : List (String × α)) (hne : ¬(k2 = k)) :
    dictGet (d ++ [(k, v)]) k2 = dictGet d k2 := by
  have hmiss : (k == k2) = false := beq_eq_false_iff_ne.mpr (fun h => hne h.symm)
  induction d with
  | nil =>
    rw [List.nil_append, dictGet_cons_miss _ _ _ hmiss]
  | cons p rest ih =>
    rw [List.cons_append]
    by_cases hp2 : (p.1 == k2) = true
    · rw [dictGet_cons_hit _ _ _ hp2, dictGet_cons_hit _ _ _ hp2]
    · rw [dictGet_cons_miss _ _ _ (by simpa using hp2),
          dictGet_cons_miss _ _ _ (by simpa using hp2)]
      exact ih

theorem dictGet_insert_other {α : Type} (k k2 : String) (v : α)
    (d : List (String × α)) (hne : ¬(k2 = k)) :
    dictGet (dictInsert k v d) k2 = dictGet d k2 := by
  unfold dictInsert
  split
  · exact dictGet_map_other k k2 v d hne
  · exact dictGet_append_other k k2 v d hne

/-- `UIEventStreamer.RATE_LIMITED_EVENTS`: the progress event types subject
to rate limiting — `tool.progress` is one of them and is UI-relevant. -/
def RATE_LIMITED_EVENTS : List EventType :=
  [.workerProgress, .leadProgress, .toolProgress]

/-- The `status_map` used for agent lifecycle events
(`status_map.get(event.type, "unknown")`). -/
def statusMap : EventType → String
  | .agentStarted => "started"
  | .agentIdle => "idle"
  | .agentBusy => "busy"
  | .agentStopped => "stopped"
  | _ => "unknown"

/-- `UIEventStreamer._transform_payload`: copy the event data, add
`correlation_id` when present, add `priority` for HIGH/CRITICAL, then apply
the per-type transformation.  `float(...)` on a non-numeric `progress`
value would raise inside the handler; the claims only concern numeric
values, for which `max(0.0, min(1.0, ·))` is exact rational `max`/`min`. -/
def transformPayload (e : Event) : EventData :=
  let payload := e.data
  let payload := match e.correlationId with
    | some c => dictInsert "correlation_id" (PyValue.str c) payload
    | none => payload
  let payload := if e.priority = .high ∨ e.priority = .critical then
      dictInsert "priority" (.str e.priority.value) payload
    else payload
  if e.type ∈ [EventType.agentStarted, .agentIdle, .agentBusy, .agentStopped] then
    dictInsert "status" (.str (statusMap e.type)) payload
  else if e.type ∈ [EventType.approvalGranted, .approvalDenied] then
    dictInsert "approved" (.boolean (decide (e.type = .approvalGranted))) payload
  else if e.type ∈ [EventType.workerProgress, .leadProgress] then
    (match dictGet payload "progress" with
     | some (.num q) => dictInsert "progress" (.num (max 0 (min 1 q))) payload
     | _ => payload)
  else payload

/-- **C9 counterexample.**  `tool.progress` is a UI-relevant, rate-limited
event type, yet its numeric `progress` field passes through the payload
transformation unclamped: a progress of `3/2` stays `3/2 > 1`. -/
theorem claim_C9_counterexample :
    EventType.toolProgress ∈ RATE_LIMITED_EVENTS ∧
    dictGet (transformPayload
        { type := .toolProgress, data := [("progress", .num (3/2))],
          source := "tool" }) "progress"
      = some (.num (3/2)) ∧
    ¬((3 : ℚ)/2 ≤ 1) := by
  refine ⟨by decide, rfl, by norm_num⟩

/-- **C9 (amended).**  The `[0,1]` clamp applies to `worker.progress` and
`lead.progress` events only (not `tool.progress`): for those two types a
numeric `progress` field is replaced by `max 0 (min 1 q)`, which lies in
`[0,1]`. -/
theorem claim_C9 (e : Event) (q : ℚ)
    (htype : e.type = EventType.workerProgress ∨ e.type = EventType.leadProgress)
    (hq : dictGet e.data "progress" = some (.num q)) :
    dictGet (transformPayload e) "progress" = some (.num (max 0 (min 1 q))) ∧
    (0 : ℚ) ≤ max 0 (min 1 q) ∧ max 0 (min 1 q) ≤ 1 := by
  refine ⟨?_, le_max_left _ _, ?_⟩
  · unfold transformPayload
    have h1 : dictGet (match e.correlationId with
        | some c => dictInsert "correlation_id" (PyValue.str c) e.data
        | none => e.data) "progress" = some (.num q) := by
      rcases e.correlationId with _ | c
      · exact hq
      · rw [dictGet_insert_other _ _ _ _ (by decide)]
        exact hq
    set payload1 := (match e.correlationId with
        | some c => dictInsert "correlation_id" (PyValue.str c) e.data
        | none => e.data) with hp1
    have h2 : dictGet (if e.priority = .high ∨ e.priority = .critical then
          dictInsert "priority" (.str e.priority.value) payload1
        else payload1) "progress" = some (.num q) := by
      split
      · rw [dictGet_insert_other _ _ _ _ (by decide)]
        exact h1
      · exact h1
    set payload2 := (if e.priority = .high ∨ e.priority = .critical then
        dictInsert "priority" (.str e.priority.value) payload1
      else payload1) with hp2
    rcases htype with ht | ht <;>
      rw [ht] <;>
      rw [if_neg (by decide), if_neg (by decide), if_pos (by decide), h2] <;>
      exact dictGet_insert_self _ _ _
  · rcases le_or_lt (min 1 q) 0 with h | h
    · simp [max_eq_left h]
    · have hx : max 0 (min 1 q) = min 1 q := max_eq_right h.le
      rw [hx]
      exact min_le_left _ _

/-- Witness for C9 at a concrete `worker.progress` event whose progress
`5/4` is clamped to `1`. -/
theorem claim_C9_witness :
    dictGet (transformPayload
        { type := .workerProgress, data := [("progress", .num (5/4))],
          source := "w" }) "progress"
      = some (.num 1) := by
  have h := claim_C9
    { type := .workerProgress, data := [("progress", .num (5/4))],
      source := "w" } (5/4)
    (Or.inl rfl) rfl
  rw [h.1]
  norm_num
